import Mathlib

/-!
Shallow embedding of the apply4me-backend submission service, translated
from the validating variant of the server (`src/unnamed/part_000`), which
is the variant carrying field validation, the email format regex, the
multer 5 MB upload limit, the save-error classification and the
`/api/health` endpoint.

Modelling conventions:
* request body fields are `Option String` (absent vs present);
* JS falsiness of a string value (`!name`) is `none` or the empty string;
* JS `String.prototype.trim` and the regex class `\s` are modelled by
  `isSpaceJS` over the ECMAScript white-space / line-terminator set;
* the regex `/^[^\s@]+@[^\s@]+\.[^\s@]+$/` is modelled by brute-force
  enumeration of all split points (`splitsAux`), which is exactly the set
  of strings the anchored regex accepts;
* MongoDB is modelled as a list of documents; the outcome of
  `newSubmission.save()` (success, ValidationError, MongoError /
  MongoServerError, other error) is an explicit `SaveOutcome` input, the
  assigned `_id` and `Date.now()` are explicit `id` / `now` inputs;
* each `res.status(s).json({...})` site becomes one constructor of
  `RespBody` carrying the literal strings of the source.
-/

namespace Apply4me

/-- ECMAScript WhiteSpace / LineTerminator characters: the set matched by
the regex class `\s` and stripped by `String.prototype.trim`. -/
def isSpaceJS (c : Char) : Bool :=
  c == ' ' || c == '\t' || c == '\n' || c == '\x0b' || c == '\x0c' || c == '\r' ||
  c == '\u00A0' || c == '\u1680' || ('\u2000' ≤ c && c ≤ '\u200A') ||
  c == '\u2028' || c == '\u2029' || c == '\u202F' || c == '\u205F' ||
  c == '\u3000' || c == '\uFEFF'

/-- JS `String.prototype.trim` on a character list: drop `\s` characters
from both ends. -/
def jsTrimList (cs : List Char) : List Char :=
  ((cs.dropWhile isSpaceJS).reverse.dropWhile isSpaceJS).reverse

/-- JS `String.prototype.trim`. -/
def jsTrim (s : String) : String :=
  String.mk (jsTrimList s.toList)

/-- JS truthiness of an optional string field: `undefined` and `""` are
falsy, every other string is truthy. -/
def jsTruthy (o : Option String) : Bool :=
  match o with
  | none => false
  | some s => s != ""

/-- Character class `[^\s@]` of the email regex. -/
def nonSpaceAtChar (c : Char) : Bool :=
  !(isSpaceJS c) && !(c == '@')

/-- Character class "any non-space character" (`[^\s]`), used by the
spec's wording for the last group of the email pattern. -/
def nonSpaceChar (c : Char) : Bool :=
  !(isSpaceJS c)

/-- All ways to split a list into a prefix and the remaining suffix. -/
def splitsAux : List Char → List (List Char × List Char)
  | [] => [([], [])]
  | c :: rest => ([], c :: rest) :: (splitsAux rest).map (fun p => (c :: p.1, p.2))

/-- Matcher for the fragment `\.G3+$`: a literal dot followed by a
non-empty run of `g3` characters reaching the end of the string. -/
def matchDotPart (g3 : Char → Bool) (r : List Char) : Bool :=
  match r with
  | x :: c => x == '.' && (!c.isEmpty && c.all g3)
  | [] => false

/-- Matcher for the fragment `[^\s@]+\.G3+$` applied after the `@`. -/
def matchAfterAt (g3 : Char → Bool) (r2 : List Char) : Bool :=
  (splitsAux r2).any fun p =>
    !p.1.isEmpty && p.1.all nonSpaceAtChar && matchDotPart g3 p.2

/-- Full-string matcher for `^[^\s@]+@[^\s@]+\.G3+$`, parameterised by the
character class `g3` of the last group. -/
def matchesEmailPat (g3 : Char → Bool) (cs : List Char) : Bool :=
  (splitsAux cs).any fun p =>
    !p.1.isEmpty && p.1.all nonSpaceAtChar &&
      (match p.2 with
       | x :: r2 => x == '@' && matchAfterAt g3 r2
       | [] => false)

/-- The source's `emailRegex.test`: `/^[^\s@]+@[^\s@]+\.[^\s@]+$/`. -/
def emailRegexTest (s : String) : Bool :=
  matchesEmailPat nonSpaceAtChar s.toList

/-- The pattern as the spec words it: "one or more non-space/non-@
characters, @, one or more non-space/non-@ characters, ., one or more
non-space characters" — the last group only excludes spaces. -/
def specEmailPattern (s : String) : Bool :=
  matchesEmailPat nonSpaceChar s.toList

/-- The spec's pattern amended so that the last group is also
`[^\s@]`, i.e. exactly the pattern the source's regex implements. -/
def specEmailPatternAmended (s : String) : Bool :=
  matchesEmailPat nonSpaceAtChar s.toList

/-- `req.file` as produced by multer memory storage: raw bytes, MIME type
and original client file name. -/
structure UploadedFile where
  buffer : List Nat
  mimetype : String
  originalname : String
deriving DecidableEq

/-- Text fields of `req.body`; an absent field is `none`. -/
structure ReqBody where
  name : Option String
  email : Option String
  mobile : Option String
  message : Option String
deriving DecidableEq

/-- A POST /api/submit request: body fields plus the optional single
`resume` file. -/
structure Request where
  body : ReqBody
  file : Option UploadedFile
deriving DecidableEq

/-- The embedded `resume` sub-document of the Submission schema. -/
structure SubResume where
  data : List Nat
  contentType : String
  originalName : String
deriving DecidableEq

/-- A persisted Submission document. `createdAt` is the schema default
`Date.now` at creation, `id` is the MongoDB `_id` assigned at save. -/
structure Submission where
  name : String
  email : String
  mobile : String
  message : String
  resume : Option SubResume
  createdAt : Nat
  id : Nat
deriving DecidableEq

/-- Outcome of `newSubmission.save()`, classified the way the handler's
catch block inspects `err.name`: mongoose `ValidationError` (with its
message and `Object.keys(err.errors)`), `MongoError` / `MongoServerError`,
or any other thrown error. -/
inductive SaveOutcome where
  | ok : SaveOutcome
  | validationError (message : String) (errorFields : List String) : SaveOutcome
  | mongoError (message : String) : SaveOutcome
  | otherError (message : String) : SaveOutcome
deriving DecidableEq

/-- Environment: whether `process.env.NODE_ENV === "development"`. -/
structure Env where
  isDevelopment : Bool
deriving DecidableEq

/-- JSON response bodies, one constructor per `res.status(..).json({..})`
site of the /api/submit route and of the fallback error middleware; the
constant strings are supplied at the call sites, mirroring the source. -/
inductive RespBody where
  | validationFailed (error details field : String) : RespBody
  | created (success : Bool) (message : String) (submissionId : Nat) : RespBody
  | dbValidationFailed (error details : String) (fields : List String) : RespBody
  | dbError (error details : String) : RespBody
  | serverError (error details : String) : RespBody
  | fallbackError (error : String) (details : Option String) : RespBody
deriving DecidableEq

/-- An HTTP response: status code and JSON body. -/
structure HttpResponse where
  status : Nat
  body : RespBody
deriving DecidableEq

/-- The multer memory-storage configuration's `limits.fileSize`. -/
def maxFileSize : Nat := 5 * 1024 * 1024

/-- Message of the multer `LIMIT_FILE_SIZE` error raised when an uploaded
file exceeds `limits.fileSize`. -/
def multerFileTooLargeMessage : String := "File too large"

/-- The fallback error-handling middleware
`app.use((err, req, res, next) => ...)`: HTTP 500,
`{error: "Internal server error", details: dev ? err.message : undefined}`. -/
def errorMiddleware (env : Env) (errMessage : String) : HttpResponse :=
  ⟨500, .fallbackError "Internal server error"
          (if env.isDevelopment then some errMessage else none)⟩

/-- The `submissionData` object built by the handler after validation
(trimmed `name`/`email`, `mobile ? mobile.trim() : ""`, likewise for
`message`, and the `resume` sub-document when a file is present),
together with the save-assigned `createdAt` and `_id`. -/
def buildSubmissionData (req : Request) (now id : Nat) : Submission :=
  { name := jsTrim (req.body.name.getD "")
    email := jsTrim (req.body.email.getD "")
    mobile := if jsTruthy req.body.mobile then jsTrim (req.body.mobile.getD "") else ""
    message := if jsTruthy req.body.message then jsTrim (req.body.message.getD "") else ""
    resume := req.file.map (fun f => ⟨f.buffer, f.mimetype, f.originalname⟩)
    createdAt := now
    id := id }

/-- The body of `app.post("/api/submit", ...)` of the validating variant:
validation of `name` and `email`, the email regex check, construction of
`submissionData`, the save, the 201 success response, and the catch
block's classification of save errors. The store is the list of persisted
documents; `outcome` is the result of `newSubmission.save()`, `now` the
clock value for `createdAt`, `id` the `_id` the store would assign. -/
def submitHandler (env : Env) (req : Request) (store : List Submission)
    (outcome : SaveOutcome) (now id : Nat) : HttpResponse × List Submission :=
  if !(jsTruthy req.body.name) || (jsTrim (req.body.name.getD "") == "") then
    (⟨400, .validationFailed "Validation failed"
            "Name is required and cannot be empty" "name"⟩, store)
  else if !(jsTruthy req.body.email) || (jsTrim (req.body.email.getD "") == "") then
    (⟨400, .validationFailed "Validation failed"
            "Email is required and cannot be empty" "email"⟩, store)
  else if !(emailRegexTest (req.body.email.getD "")) then
    (⟨400, .validationFailed "Validation failed"
            "Please enter a valid email address" "email"⟩, store)
  else
    match outcome with
    | .ok =>
        (⟨201, .created true "Submission saved successfully" id⟩,
         store ++ [buildSubmissionData req now id])
    | .validationError msg fields =>
        (⟨400, .dbValidationFailed "Database validation failed" msg fields⟩, store)
    | .mongoError msg =>
        (⟨500, .dbError "Database error"
                (if env.isDevelopment then msg else "Database connection issue")⟩, store)
    | .otherError msg =>
        (⟨500, .serverError "Server error"
                (if env.isDevelopment then msg else "Internal server error")⟩, store)

/-- The full /api/submit route: `upload.single("resume")` runs first, and
a file exceeding `limits.fileSize` makes multer raise `LIMIT_FILE_SIZE`,
which Express hands to the fallback error middleware instead of the
handler; otherwise the handler body runs. -/
def apiSubmit (env : Env) (req : Request) (store : List Submission)
    (outcome : SaveOutcome) (now id : Nat) : HttpResponse × List Submission :=
  match req.file with
  | some f =>
      if f.buffer.length > maxFileSize then
        (errorMiddleware env multerFileTooLargeMessage, store)
      else
        submitHandler env req store outcome now id
  | none => submitHandler env req store outcome now id

/-- One entry of the `corsOptions.origin` array: either an exact URL or
the `/^https:\/\/apply4me-frontend.*\.vercel\.app$/` pattern. -/
inductive OriginSpec where
  | exact (url : String) : OriginSpec
  | vercelPat : OriginSpec
deriving DecidableEq

/-- The configured `corsOptions.origin` list. -/
def corsOrigins (frontendUrl : Option String) : List OriginSpec :=
  [ .exact (frontendUrl.getD "http://localhost:5173"),
    .exact "https://apply4me-frontend.vercel.app",
    .exact "https://apply4me-frontend-9tjtasn0b-alunixs-projects.vercel.app",
    .vercelPat ]

/-- Body of the `/api/health` JSON response. -/
structure HealthBody where
  status : String
  database : String
  timestamp : Nat
  cors : List OriginSpec
deriving DecidableEq

/-- `app.get("/api/health", ...)`: `res.json({...})` with default status
200; `readyState` is `mongoose.connection.readyState`, `now` the value of
`new Date()`. -/
def apiHealth (readyState : Nat) (now : Nat) (frontendUrl : Option String) :
    Nat × HealthBody :=
  (200,
   { status := "healthy"
     database := if readyState == 1 then "connected" else "disconnected"
     timestamp := now
     cors := corsOrigins frontendUrl })

/-- `Submission.findById`: look a document up by its identifier. -/
def findById (store : List Submission) (id : Nat) : Option Submission :=
  store.find? (fun d => d.id == id)

/-- The spec's notion "the field is absent, or empty after trimming
whitespace" for an optional request field. -/
def fieldMissingOrBlank (o : Option String) : Prop :=
  o = none ∨ jsTrim (o.getD "") = ""

/-- The conjunction of the three validation checks the handler performs
before saving. -/
def passesValidation (req : Request) : Bool :=
  !(!(jsTruthy req.body.name) || (jsTrim (req.body.name.getD "") == "")) &&
  !(!(jsTruthy req.body.email) || (jsTrim (req.body.email.getD "") == "")) &&
  emailRegexTest (req.body.email.getD "")


/-! Helper lemmas. -/

theorem jsTrim_empty : jsTrim "" = "" := rfl

/-- The spec's "absent or empty after trimming" coincides with the
handler's guard `!field || field.trim() === ""`. -/
theorem fieldMissingOrBlank_iff (o : Option String) :
    fieldMissingOrBlank o ↔ (!(jsTruthy o) || (jsTrim (o.getD "") == "")) = true := by
  cases o with
  | none => simp [fieldMissingOrBlank, jsTruthy]
  | some s =>
    by_cases hs : s = ""
    · subst hs
      simp [fieldMissingOrBlank, jsTruthy, jsTrim_empty]
    · simp [fieldMissingOrBlank, jsTruthy, hs]

theorem fieldPresent_eq_false {o : Option String} (h : ¬ fieldMissingOrBlank o) :
    (!(jsTruthy o) || (jsTrim (o.getD "") == "")) = false := by
  cases hb : (!(jsTruthy o) || (jsTrim (o.getD "") == ""))
  · rfl
  · exact absurd ((fieldMissingOrBlank_iff o).mpr hb) h

/-- Claim C1: a POST /api/submit request whose `name` or `email` is absent
or blank after trimming is answered with HTTP 400, a structured body naming
an offending field, and no document is persisted. -/
theorem submit_missing_name_or_email_rejected
    (env : Env) (req : Request) (store : List Submission)
    (outcome : SaveOutcome) (now id : Nat)
    (h : fieldMissingOrBlank req.body.name ∨ fieldMissingOrBlank req.body.email) :
    (submitHandler env req store outcome now id).1.status = 400 ∧
    (∃ d f, (submitHandler env req store outcome now id).1.body =
        RespBody.validationFailed "Validation failed" d f ∧
      fieldMissingOrBlank (if f = "name" then req.body.name else req.body.email)) ∧
    (submitHandler env req store outcome now id).2 = store := by
  by_cases hn : fieldMissingOrBlank req.body.name
  · have hb := (fieldMissingOrBlank_iff req.body.name).mp hn
    have heq : submitHandler env req store outcome now id =
        (⟨400, .validationFailed "Validation failed"
                "Name is required and cannot be empty" "name"⟩, store) := by
      simp only [submitHandler, hb, if_true]
    rw [heq]
    exact ⟨rfl, ⟨"Name is required and cannot be empty", "name", rfl, by simpa using hn⟩, rfl⟩
  · have he : fieldMissingOrBlank req.body.email := h.resolve_left hn
    have hbn := fieldPresent_eq_false hn
    have hbe := (fieldMissingOrBlank_iff req.body.email).mp he
    have heq : submitHandler env req store outcome now id =
        (⟨400, .validationFailed "Validation failed"
                "Email is required and cannot be empty" "email"⟩, store) := by
      simp only [submitHandler, hbn, hbe, Bool.false_eq_true, if_false, if_true]
    rw [heq]
    refine ⟨rfl, ⟨"Email is required and cannot be empty", "email", rfl, ?_⟩, rfl⟩
    simpa using he

theorem submit_missing_name_or_email_rejected_witness :
    (fieldMissingOrBlank (none : Option String) ∨
      fieldMissingOrBlank (some "jane@example.com")) ∧
    ((submitHandler ⟨false⟩ ⟨⟨none, some "jane@example.com", none, none⟩, none⟩
        [] .ok 0 0).1.status = 400 ∧
      (∃ d f, (submitHandler ⟨false⟩ ⟨⟨none, some "jane@example.com", none, none⟩, none⟩
          [] .ok 0 0).1.body = RespBody.validationFailed "Validation failed" d f ∧
        fieldMissingOrBlank (if f = "name" then (none : Option String)
          else some "jane@example.com")) ∧
      (submitHandler ⟨false⟩ ⟨⟨none, some "jane@example.com", none, none⟩, none⟩
        [] .ok 0 0).2 = []) :=
  ⟨Or.inl (Or.inl rfl),
   submit_missing_name_or_email_rejected ⟨false⟩
     ⟨⟨none, some "jane@example.com", none, none⟩, none⟩ [] .ok 0 0
     (Or.inl (Or.inl rfl))⟩

/-- Splitting a validated request out of `passesValidation`. -/
theorem passesValidation_spec {req : Request} (h : passesValidation req = true) :
    (!(jsTruthy req.body.name) || (jsTrim (req.body.name.getD "") == "")) = false ∧
    (!(jsTruthy req.body.email) || (jsTrim (req.body.email.getD "") == "")) = false ∧
    emailRegexTest (req.body.email.getD "") = true := by
  simp only [passesValidation, Bool.and_eq_true, Bool.not_eq_true'] at h
  exact ⟨h.1.1, h.1.2, h.2⟩

/-- A validated request together with a successful save runs the success
branch of the handler. -/
theorem submitHandler_valid_ok (env : Env) (req : Request) (store : List Submission)
    (now id : Nat) (hv : passesValidation req = true) :
    submitHandler env req store .ok now id =
      (⟨201, .created true "Submission saved successfully" id⟩,
       store ++ [buildSubmissionData req now id]) := by
  obtain ⟨h1, h2, h3⟩ := passesValidation_spec hv
  simp only [submitHandler, h1, h2, h3, Bool.not_true, Bool.false_eq_true, if_false]

/-- Claim C2: a POST /api/submit request that passes validation and whose
save succeeds persists exactly one new document (appended to the store,
carrying the assigned identifier) and is answered with HTTP 201 and the
body `{success: true, message: "Submission saved successfully",
submissionId: <id>}`. -/
theorem submit_valid_persists_and_201
    (env : Env) (req : Request) (store : List Submission) (now id : Nat)
    (hv : passesValidation req = true) :
    submitHandler env req store .ok now id =
      (⟨201, .created true "Submission saved successfully" id⟩,
       store ++ [buildSubmissionData req now id]) ∧
    (buildSubmissionData req now id).id = id := by
  exact ⟨submitHandler_valid_ok env req store now id hv, rfl⟩

theorem submit_valid_persists_and_201_witness :
    passesValidation ⟨⟨some "Jane Doe", some "jane@example.com", none, none⟩, none⟩ = true ∧
    (submitHandler ⟨false⟩ ⟨⟨some "Jane Doe", some "jane@example.com", none, none⟩, none⟩
        [] .ok 5 7 =
      (⟨201, .created true "Submission saved successfully" 7⟩,
       [buildSubmissionData ⟨⟨some "Jane Doe", some "jane@example.com", none, none⟩, none⟩ 5 7]) ∧
     (buildSubmissionData ⟨⟨some "Jane Doe", some "jane@example.com", none, none⟩, none⟩ 5 7).id = 7) :=
  ⟨by decide,
   submit_valid_persists_and_201 ⟨false⟩
     ⟨⟨some "Jane Doe", some "jane@example.com", none, none⟩, none⟩ [] 5 7 (by decide)⟩

/-- Claim C10: /api/health always answers 200 with status "healthy"; the
`database` field is "connected" exactly when the connection readyState is
1, and the body carries the timestamp and the configured origins. -/
theorem health_always_healthy (readyState now : Nat) (frontendUrl : Option String) :
    (apiHealth readyState now frontendUrl).1 = 200 ∧
    (apiHealth readyState now frontendUrl).2.status = "healthy" ∧
    ((apiHealth readyState now frontendUrl).2.database = "connected" ↔ readyState = 1) ∧
    ((apiHealth readyState now frontendUrl).2.database = "connected" ∨
     (apiHealth readyState now frontendUrl).2.database = "disconnected") ∧
    (apiHealth readyState now frontendUrl).2.timestamp = now ∧
    (apiHealth readyState now frontendUrl).2.cors = corsOrigins frontendUrl := by
  refine ⟨rfl, rfl, ?_, ?_, rfl, rfl⟩
  · by_cases h : readyState = 1
    · subst h
      simp [apiHealth]
    · have hb : (readyState == 1) = false := by simpa using h
      simp only [apiHealth, hb, Bool.false_eq_true, if_false]
      exact iff_of_false (by decide) h
  · by_cases h : readyState = 1
    · subst h
      exact Or.inl (by simp [apiHealth])
    · have hb : (readyState == 1) = false := by simpa using h
      exact Or.inr (by simp [apiHealth, hb])


/-- Claim C4: when the save of a validated request is rejected, a mongoose
ValidationError is answered with HTTP 400 carrying the offending field
list, while MongoError/MongoServerError and any other store error are
answered with HTTP 500 and a generic message whose internal detail appears
only in development mode; nothing is persisted. -/
theorem submit_save_errors_classified
    (env : Env) (req : Request) (store : List Submission) (now id : Nat)
    (msg : String) (fields : List String)
    (hv : passesValidation req = true) :
    (submitHandler env req store (.validationError msg fields) now id =
      (⟨400, .dbValidationFailed "Database validation failed" msg fields⟩, store)) ∧
    (submitHandler env req store (.mongoError msg) now id =
      (⟨500, .dbError "Database error"
        (if env.isDevelopment then msg else "Database connection issue")⟩, store)) ∧
    (submitHandler env req store (.otherError msg) now id =
      (⟨500, .serverError "Server error"
        (if env.isDevelopment then msg else "Internal server error")⟩, store)) := by
  obtain ⟨h1, h2, h3⟩ := passesValidation_spec hv
  refine ⟨?_, ?_, ?_⟩ <;>
    simp only [submitHandler, h1, h2, h3, Bool.not_true, Bool.false_eq_true, if_false]

theorem submit_save_errors_classified_witness :
    passesValidation ⟨⟨some "Jane Doe", some "jane@example.com", none, none⟩, none⟩ = true ∧
    ((submitHandler ⟨false⟩ ⟨⟨some "Jane Doe", some "jane@example.com", none, none⟩, none⟩
        [] (.validationError "boom" ["email"]) 0 0 =
      (⟨400, .dbValidationFailed "Database validation failed" "boom" ["email"]⟩, [])) ∧
     (submitHandler ⟨false⟩ ⟨⟨some "Jane Doe", some "jane@example.com", none, none⟩, none⟩
        [] (.mongoError "boom") 0 0 =
      (⟨500, .dbError "Database error"
        (if (Env.mk false).isDevelopment then "boom" else "Database connection issue")⟩, [])) ∧
     (submitHandler ⟨false⟩ ⟨⟨some "Jane Doe", some "jane@example.com", none, none⟩, none⟩
        [] (.otherError "boom") 0 0 =
      (⟨500, .serverError "Server error"
        (if (Env.mk false).isDevelopment then "boom" else "Internal server error")⟩, []))) :=
  ⟨by decide,
   submit_save_errors_classified ⟨false⟩
     ⟨⟨some "Jane Doe", some "jane@example.com", none, none⟩, none⟩ [] 0 0
     "boom" ["email"] (by decide)⟩

/-- Claim C5: after a validated request is saved under a fresh identifier,
looking the document up by that identifier reproduces exactly the trimmed
`name`, `email`, `mobile` and `message` that were submitted, together with
the attached file's bytes, content type and original name. -/
theorem submit_roundtrip
    (env : Env) (req : Request) (store : List Submission) (now id : Nat)
    (hv : passesValidation req = true)
    (hfresh : findById store id = none) :
    ∃ d, findById (submitHandler env req store .ok now id).2 id = some d ∧
      d.name = jsTrim (req.body.name.getD "") ∧
      d.email = jsTrim (req.body.email.getD "") ∧
      (∀ m, req.body.mobile = some m → d.mobile = jsTrim m) ∧
      (∀ m, req.body.message = some m → d.message = jsTrim m) ∧
      d.resume = req.file.map (fun f => ⟨f.buffer, f.mimetype, f.originalname⟩) ∧
      d.createdAt = now ∧ d.id = id := by
  refine ⟨buildSubmissionData req now id, ?_, rfl, rfl, ?_, ?_, rfl, rfl, rfl⟩
  · rw [submitHandler_valid_ok env req store now id hv]
    simp only [findById] at hfresh ⊢
    rw [List.find?_append, hfresh]
    simp [buildSubmissionData]
  · intro m hm
    by_cases hm0 : m = ""
    · subst hm0
      simp [buildSubmissionData, hm, jsTruthy, jsTrim_empty]
    · simp [buildSubmissionData, hm, jsTruthy, hm0]
  · intro m hm
    by_cases hm0 : m = ""
    · subst hm0
      simp [buildSubmissionData, hm, jsTruthy, jsTrim_empty]
    · simp [buildSubmissionData, hm, jsTruthy, hm0]

theorem submit_roundtrip_witness :
    passesValidation ⟨⟨some " Jane Doe ", some "jane@example.com", some " 123 ", some " hi "⟩,
      some ⟨[1, 2, 3], "application/pdf", "cv.pdf"⟩⟩ = true ∧
    findById [] 7 = none ∧
    (∃ d, findById (submitHandler ⟨false⟩
        ⟨⟨some " Jane Doe ", some "jane@example.com", some " 123 ", some " hi "⟩,
          some ⟨[1, 2, 3], "application/pdf", "cv.pdf"⟩⟩ [] .ok 5 7).2 7 = some d ∧
      d.name = jsTrim ((some " Jane Doe ").getD "") ∧
      d.email = jsTrim ((some "jane@example.com").getD "") ∧
      (∀ m, (some " 123 " : Option String) = some m → d.mobile = jsTrim m) ∧
      (∀ m, (some " hi " : Option String) = some m → d.message = jsTrim m) ∧
      d.resume = (some (UploadedFile.mk [1, 2, 3] "application/pdf" "cv.pdf")).map
        (fun f => ⟨f.buffer, f.mimetype, f.originalname⟩) ∧
      d.createdAt = 5 ∧ d.id = 7) :=
  ⟨by decide, rfl,
   submit_roundtrip ⟨false⟩
     ⟨⟨some " Jane Doe ", some "jane@example.com", some " 123 ", some " hi "⟩,
       some ⟨[1, 2, 3], "application/pdf", "cv.pdf"⟩⟩ [] 5 7 (by decide) rfl⟩

/-- Claim C6: for a validated request the persisted document stores the
empty string for `mobile` (respectively `message`) whenever that field was
absent from the request. -/
theorem submit_absent_optional_fields_default_empty
    (env : Env) (req : Request) (store : List Submission) (now id : Nat)
    (hv : passesValidation req = true) :
    (submitHandler env req store .ok now id).2 =
      store ++ [buildSubmissionData req now id] ∧
    (req.body.mobile = none → (buildSubmissionData req now id).mobile = "") ∧
    (req.body.message = none → (buildSubmissionData req now id).message = "") := by
  refine ⟨by rw [submitHandler_valid_ok env req store now id hv], ?_, ?_⟩
  · intro hm
    simp [buildSubmissionData, hm, jsTruthy]
  · intro hm
    simp [buildSubmissionData, hm, jsTruthy]

theorem submit_absent_optional_fields_default_empty_witness :
    passesValidation ⟨⟨some "Jane Doe", some "jane@example.com", none, none⟩, none⟩ = true ∧
    ((submitHandler ⟨false⟩ ⟨⟨some "Jane Doe", some "jane@example.com", none, none⟩, none⟩
        [] .ok 0 0).2 =
      [] ++ [buildSubmissionData
        ⟨⟨some "Jane Doe", some "jane@example.com", none, none⟩, none⟩ 0 0] ∧
     ((none : Option String) = none →
      (buildSubmissionData ⟨⟨some "Jane Doe", some "jane@example.com", none, none⟩, none⟩
        0 0).mobile = "") ∧
     ((none : Option String) = none →
      (buildSubmissionData ⟨⟨some "Jane Doe", some "jane@example.com", none, none⟩, none⟩
        0 0).message = "")) :=
  ⟨by decide,
   submit_absent_optional_fields_default_empty ⟨false⟩
     ⟨⟨some "Jane Doe", some "jane@example.com", none, none⟩, none⟩ [] 0 0 (by decide)⟩

/-- Claim C8: submitting the same validated payload twice appends two
distinct documents (the identifiers differ, each `createdAt` comes from
its own save) and grows the store by two — the endpoint is not
idempotent. -/
theorem submit_twice_two_distinct_docs
    (env : Env) (req : Request) (store : List Submission)
    (now1 now2 id1 id2 : Nat)
    (hv : passesValidation req = true) (hids : id1 ≠ id2) :
    (submitHandler env req (submitHandler env req store .ok now1 id1).2 .ok now2 id2).2 =
      store ++ [buildSubmissionData req now1 id1, buildSubmissionData req now2 id2] ∧
    buildSubmissionData req now1 id1 ≠ buildSubmissionData req now2 id2 ∧
    (buildSubmissionData req now1 id1).id ≠ (buildSubmissionData req now2 id2).id ∧
    (buildSubmissionData req now1 id1).createdAt = now1 ∧
    (buildSubmissionData req now2 id2).createdAt = now2 ∧
    (submitHandler env req (submitHandler env req store .ok now1 id1).2 .ok now2 id2).2.length
      = store.length + 2 := by
  have e1 := submitHandler_valid_ok env req store now1 id1 hv
  have e2 := submitHandler_valid_ok env req
    (store ++ [buildSubmissionData req now1 id1]) now2 id2 hv
  have estore : (submitHandler env req
      (submitHandler env req store .ok now1 id1).2 .ok now2 id2).2 =
      store ++ [buildSubmissionData req now1 id1, buildSubmissionData req now2 id2] := by
    rw [e1]
    show (submitHandler env req (store ++ [buildSubmissionData req now1 id1])
      .ok now2 id2).2 = _
    rw [e2]
    simp
  have hne : (buildSubmissionData req now1 id1).id ≠
      (buildSubmissionData req now2 id2).id := by
    simpa [buildSubmissionData] using hids
  refine ⟨estore, fun h => hne (congrArg Submission.id h), hne, rfl, rfl, ?_⟩
  rw [estore]
  simp

theorem submit_twice_two_distinct_docs_witness :
    passesValidation ⟨⟨some "Jane Doe", some "jane@example.com", none, none⟩, none⟩ = true ∧
    (3 : Nat) ≠ 4 ∧
    ((submitHandler ⟨false⟩ ⟨⟨some "Jane Doe", some "jane@example.com", none, none⟩, none⟩
        (submitHandler ⟨false⟩ ⟨⟨some "Jane Doe", some "jane@example.com", none, none⟩, none⟩
          [] .ok 1 3).2 .ok 2 4).2 =
      [] ++ [buildSubmissionData
          ⟨⟨some "Jane Doe", some "jane@example.com", none, none⟩, none⟩ 1 3,
        buildSubmissionData
          ⟨⟨some "Jane Doe", some "jane@example.com", none, none⟩, none⟩ 2 4] ∧
     buildSubmissionData ⟨⟨some "Jane Doe", some "jane@example.com", none, none⟩, none⟩ 1 3 ≠
       buildSubmissionData ⟨⟨some "Jane Doe", some "jane@example.com", none, none⟩, none⟩ 2 4 ∧
     (buildSubmissionData
        ⟨⟨some "Jane Doe", some "jane@example.com", none, none⟩, none⟩ 1 3).id ≠
       (buildSubmissionData
        ⟨⟨some "Jane Doe", some "jane@example.com", none, none⟩, none⟩ 2 4).id ∧
     (buildSubmissionData
        ⟨⟨some "Jane Doe", some "jane@example.com", none, none⟩, none⟩ 1 3).createdAt = 1 ∧
     (buildSubmissionData
        ⟨⟨some "Jane Doe", some "jane@example.com", none, none⟩, none⟩ 2 4).createdAt = 2 ∧
     (submitHandler ⟨false⟩ ⟨⟨some "Jane Doe", some "jane@example.com", none, none⟩, none⟩
        (submitHandler ⟨false⟩ ⟨⟨some "Jane Doe", some "jane@example.com", none, none⟩, none⟩
          [] .ok 1 3).2 .ok 2 4).2.length = ([] : List Submission).length + 2) :=
  ⟨by decide, by decide,
   submit_twice_two_distinct_docs ⟨false⟩
     ⟨⟨some "Jane Doe", some "jane@example.com", none, none⟩, none⟩ [] 1 2 3 4
     (by decide) (by decide)⟩


/-! Structure of accepted email strings. -/

theorem splitsAux_eq_append {cs : List Char} {p : List Char × List Char}
    (hp : p ∈ splitsAux cs) : p.1 ++ p.2 = cs := by
  induction cs generalizing p with
  | nil =>
    simp only [splitsAux, List.mem_singleton] at hp
    subst hp
    rfl
  | cons c rest ih =>
    simp only [splitsAux, List.mem_cons, List.mem_map] at hp
    rcases hp with rfl | ⟨q, hq, rfl⟩
    · rfl
    · simpa using ih hq

/-- Any string the matcher accepts decomposes as `a ++ "@" ++ b ++ "." ++ c`
with the three groups non-empty and character-wise constrained. -/
theorem matchesEmailPat_decomp {g3 : Char → Bool} {cs : List Char}
    (h : matchesEmailPat g3 cs = true) :
    ∃ a b c, cs = a ++ '@' :: (b ++ '.' :: c) ∧
      a ≠ [] ∧ b ≠ [] ∧ c ≠ [] ∧
      a.all nonSpaceAtChar = true ∧ b.all nonSpaceAtChar = true ∧
      c.all g3 = true := by
  simp only [matchesEmailPat, List.any_eq_true] at h
  obtain ⟨p, hp, hcond⟩ := h
  have hsplit := splitsAux_eq_append hp
  cases hp2 : p.2 with
  | nil =>
    rw [hp2] at hcond
    simp at hcond
  | cons x r2 =>
    rw [hp2] at hcond
    simp only [Bool.and_eq_true, beq_iff_eq, Bool.not_eq_true', List.isEmpty_eq_false]
      at hcond
    obtain ⟨⟨hane, haall⟩, hx, hafter⟩ := hcond
    subst hx
    simp only [matchAfterAt, List.any_eq_true] at hafter
    obtain ⟨q, hq, hqcond⟩ := hafter
    have hqsplit := splitsAux_eq_append hq
    cases hq2 : q.2 with
    | nil =>
      rw [hq2] at hqcond
      simp [matchDotPart] at hqcond
    | cons y c =>
      rw [hq2] at hqcond
      simp only [matchDotPart, Bool.and_eq_true, beq_iff_eq, Bool.not_eq_true',
        List.isEmpty_eq_false] at hqcond
      obtain ⟨⟨hbne, hball⟩, hy, hcne, hcall⟩ := hqcond
      subst hy
      refine ⟨p.1, q.1, c, ?_, hane, hbne, hcne, haall, hball, hcall⟩
      rw [← hsplit, hp2, ← hqsplit, hq2]

theorem matchesEmailPat_head {g3 : Char → Bool} {cs : List Char}
    (h : matchesEmailPat g3 cs = true) :
    ∃ x t, cs = x :: t ∧ nonSpaceAtChar x = true := by
  obtain ⟨a, b, c, hcs, hane, _, _, haall, _, _⟩ := matchesEmailPat_decomp h
  cases a with
  | nil => exact absurd rfl hane
  | cons x t =>
    simp only [List.all_cons, Bool.and_eq_true] at haall
    exact ⟨x, t ++ '@' :: (b ++ '.' :: c), by simpa using hcs, haall.1⟩

theorem matchesEmailPat_getLast {g3 : Char → Bool} {cs : List Char}
    (h : matchesEmailPat g3 cs = true) :
    ∃ x, cs.getLast? = some x ∧ g3 x = true := by
  obtain ⟨a, b, c, hcs, _, _, hcne, _, _, hcall⟩ := matchesEmailPat_decomp h
  subst hcs
  have hrw : a ++ '@' :: (b ++ '.' :: c) = ((a ++ '@' :: b) ++ ['.']) ++ c := by
    simp
  rw [hrw, List.getLast?_append_of_ne_nil _ hcne,
    List.getLast?_eq_getLast_of_ne_nil hcne]
  refine ⟨c.getLast hcne, rfl, ?_⟩
  exact List.all_eq_true.mp hcall _ (List.getLast_mem hcne)

theorem dropWhile_of_head_false {p : Char → Bool} {l : List Char}
    (h : ∀ x, l.head? = some x → p x = false) : l.dropWhile p = l := by
  cases l with
  | nil => rfl
  | cons a t =>
    rw [List.dropWhile_cons, if_neg]
    simp [h a rfl]

theorem jsTrimList_eq_self {l : List Char}
    (hhead : ∀ x, l.head? = some x → isSpaceJS x = false)
    (hlast : ∀ x, l.getLast? = some x → isSpaceJS x = false) :
    jsTrimList l = l := by
  unfold jsTrimList
  rw [dropWhile_of_head_false hhead]
  rw [dropWhile_of_head_false ?_, List.reverse_reverse]
  intro x hx
  exact hlast x (by rwa [List.head?_reverse] at hx)

/-- A string accepted by the email regex carries no leading or trailing
whitespace, so JS trim leaves it unchanged. -/
theorem emailRegexTest_true_trim_eq {s : String} (h : emailRegexTest s = true) :
    jsTrim s = s := by
  obtain ⟨x, t, hxt, hx⟩ := matchesEmailPat_head h
  obtain ⟨y, hy, hy3⟩ := matchesEmailPat_getLast h
  simp only [nonSpaceAtChar, Bool.and_eq_true, Bool.not_eq_true'] at hx hy3
  have : jsTrimList s.toList = s.toList := by
    refine jsTrimList_eq_self ?_ ?_
    · intro z hz
      rw [hxt] at hz
      simp only [List.head?_cons, Option.some.injEq] at hz
      subst hz
      exact hx.1
    · intro z hz
      rw [hy] at hz
      obtain rfl := Option.some.injEq .. |>.mp hz
      exact hy3.1
  exact String.ext this

/-- Claim C3 counterexample: the address `"a@b.c@d"` matches the pattern as
the spec words it (last group only excludes spaces) yet the code's regex
rejects it and the handler answers 400; moreover a request with a
non-matching email but an absent name is answered 400 citing `name`, not
`email`. -/
theorem email_pattern_counterexample :
    specEmailPattern "a@b.c@d" = true ∧
    emailRegexTest "a@b.c@d" = false ∧
    (submitHandler ⟨false⟩ ⟨⟨some "Jane", some "a@b.c@d", none, none⟩, none⟩
      [] .ok 0 0).1.status = 400 ∧
    (submitHandler ⟨false⟩ ⟨⟨some "Jane", some "a@b.c@d", none, none⟩, none⟩
      [] .ok 0 0).1.body =
      .validationFailed "Validation failed" "Please enter a valid email address" "email" ∧
    (submitHandler ⟨false⟩ ⟨⟨none, some "bad", none, none⟩, none⟩ [] .ok 0 0).1.body =
      .validationFailed "Validation failed" "Name is required and cannot be empty" "name" := by
  decide

/-- Claim C3 amended: for a request whose name passes validation and whose
email is present but fails the pattern with `[^\s@]` as the last group —
the pattern the code's regex implements — the response is 400 citing
`email` and nothing is persisted; and every email matching that amended
pattern passes the code's format check. -/
theorem email_format_check
    (env : Env) (req : Request) (store : List Submission)
    (outcome : SaveOutcome) (now id : Nat)
    (hn : (!(jsTruthy req.body.name) || (jsTrim (req.body.name.getD "") == "")) = false)
    (hemail : jsTruthy req.body.email = true)
    (hnomatch : specEmailPatternAmended (req.body.email.getD "") = false) :
    ((submitHandler env req store outcome now id).1.status = 400 ∧
     (∃ d, (submitHandler env req store outcome now id).1.body =
        RespBody.validationFailed "Validation failed" d "email") ∧
     (submitHandler env req store outcome now id).2 = store) ∧
    (∀ s, specEmailPatternAmended s = emailRegexTest s) := by
  refine ⟨?_, fun s => rfl⟩
  have hnomatch' : emailRegexTest (req.body.email.getD "") = false := hnomatch
  by_cases ht : (jsTrim (req.body.email.getD "") == "") = true
  · have h2 : (!(jsTruthy req.body.email) ||
        (jsTrim (req.body.email.getD "") == "")) = true := by
      rw [ht, Bool.or_true]
    have heq : submitHandler env req store outcome now id =
        (⟨400, .validationFailed "Validation failed"
          "Email is required and cannot be empty" "email"⟩, store) := by
      simp only [submitHandler, hn, h2, Bool.false_eq_true, if_false, if_true]
    rw [heq]
    exact ⟨rfl, ⟨_, rfl⟩, rfl⟩
  · have h2 : (!(jsTruthy req.body.email) ||
        (jsTrim (req.body.email.getD "") == "")) = false := by
      rw [hemail, Bool.not_true, Bool.false_or]
      exact Bool.eq_false_iff.mpr ht
    have heq : submitHandler env req store outcome now id =
        (⟨400, .validationFailed "Validation failed"
          "Please enter a valid email address" "email"⟩, store) := by
      simp only [submitHandler, hn, h2, hnomatch', Bool.false_eq_true, if_false,
        Bool.not_false, if_true]
    rw [heq]
    exact ⟨rfl, ⟨_, rfl⟩, rfl⟩

theorem email_format_check_witness :
    (!(jsTruthy (some "Jane")) || (jsTrim ((some "Jane").getD "") == "")) = false ∧
    jsTruthy (some "a@b.c@d") = true ∧
    specEmailPatternAmended ((some "a@b.c@d").getD "") = false ∧
    (((submitHandler ⟨false⟩ ⟨⟨some "Jane", some "a@b.c@d", none, none⟩, none⟩
        [] .ok 0 0).1.status = 400 ∧
      (∃ d, (submitHandler ⟨false⟩ ⟨⟨some "Jane", some "a@b.c@d", none, none⟩, none⟩
        [] .ok 0 0).1.body = RespBody.validationFailed "Validation failed" d "email") ∧
      (submitHandler ⟨false⟩ ⟨⟨some "Jane", some "a@b.c@d", none, none⟩, none⟩
        [] .ok 0 0).2 = []) ∧
     (∀ s, specEmailPatternAmended s = emailRegexTest s)) :=
  ⟨by decide, by decide, by decide,
   email_format_check ⟨false⟩ ⟨⟨some "Jane", some "a@b.c@d", none, none⟩, none⟩
     [] .ok 0 0 (by decide) (by decide) (by decide)⟩

/-- Claim C9: when the `email` field is a regex-valid address surrounded by
whitespace (trimming changes it, and the trimmed form passes the regex),
the untrimmed value is what the regex tests, so the request is answered
400 citing `email` and nothing is persisted; trimming is applied only in
the stored document's construction. -/
theorem email_validated_untrimmed
    (env : Env) (req : Request) (store : List Submission)
    (outcome : SaveOutcome) (now id : Nat) (e : String)
    (hn : (!(jsTruthy req.body.name) || (jsTrim (req.body.name.getD "") == "")) = false)
    (he : req.body.email = some e)
    (htrimmed : emailRegexTest (jsTrim e) = true)
    (hws : e ≠ jsTrim e) :
    submitHandler env req store outcome now id =
      (⟨400, .validationFailed "Validation failed"
        "Please enter a valid email address" "email"⟩, store) ∧
    (buildSubmissionData req now id).email = jsTrim e := by
  have hmatch_e : emailRegexTest e = false := by
    cases hb : emailRegexTest e
    · rfl
    · exact absurd (emailRegexTest_true_trim_eq hb).symm hws
  have hete : jsTrim e ≠ "" := by
    intro h0
    rw [h0] at htrimmed
    exact absurd htrimmed (by decide)
  have hee : e ≠ "" := by
    intro h0
    subst h0
    exact hws jsTrim_empty.symm
  have h2 : (!(jsTruthy (some e)) || (jsTrim e == "")) = false := by
    simp [jsTruthy, hee, hete]
  constructor
  · simp only [submitHandler, he, Option.getD_some, hn, h2, Bool.false_eq_true,
      if_false, hmatch_e, Bool.not_false, if_true]
  · simp [buildSubmissionData, he]

theorem email_validated_untrimmed_witness :
    (!(jsTruthy (some " Jane ")) || (jsTrim ((some " Jane ").getD "") == "")) = false ∧
    (⟨⟨some " Jane ", some " jane@example.com", none, none⟩, none⟩ :
      Request).body.email = some " jane@example.com" ∧
    emailRegexTest (jsTrim " jane@example.com") = true ∧
    " jane@example.com" ≠ jsTrim " jane@example.com" ∧
    (submitHandler ⟨false⟩ ⟨⟨some " Jane ", some " jane@example.com", none, none⟩, none⟩
        [] .ok 0 0 =
      (⟨400, .validationFailed "Validation failed"
        "Please enter a valid email address" "email"⟩, []) ∧
     (buildSubmissionData ⟨⟨some " Jane ", some " jane@example.com", none, none⟩, none⟩
        0 0).email = jsTrim " jane@example.com") :=
  ⟨by decide, rfl, by decide, by decide,
   email_validated_untrimmed ⟨false⟩
     ⟨⟨some " Jane ", some " jane@example.com", none, none⟩, none⟩ [] .ok 0 0
     " jane@example.com" (by decide) rfl (by decide) (by decide)⟩

/-! Oversized uploads. -/

/-- A resume file one byte over the configured 5 MB limit. -/
def oversizedFile : UploadedFile :=
  ⟨List.replicate (5 * 1024 * 1024 + 1) 0, "application/pdf", "resume.pdf"⟩

/-- An otherwise valid request carrying `oversizedFile`. -/
def oversizedReq : Request :=
  ⟨⟨some "Jane Doe", some "jane@example.com", none, none⟩, some oversizedFile⟩

/-- Claim C7 counterexample: a request whose resume exceeds 5 MB is
answered by the fallback error middleware with HTTP 500 and a generic
body carrying no field name — not with HTTP 400 — and nothing is
persisted. -/
theorem oversized_upload_counterexample :
    (apiSubmit ⟨false⟩ oversizedReq [] .ok 0 0).1.status = 500 ∧
    ¬ (apiSubmit ⟨false⟩ oversizedReq [] .ok 0 0).1.status = 400 ∧
    (apiSubmit ⟨false⟩ oversizedReq [] .ok 0 0).1.body =
      .fallbackError "Internal server error" none ∧
    (apiSubmit ⟨false⟩ oversizedReq [] .ok 0 0).2 = [] := by
  have hgt : oversizedFile.buffer.length > maxFileSize := by
    simp only [oversizedFile, List.length_replicate, maxFileSize]
    decide
  have heq : apiSubmit ⟨false⟩ oversizedReq [] .ok 0 0 =
      (errorMiddleware ⟨false⟩ multerFileTooLargeMessage, []) := by
    simp only [apiSubmit, oversizedReq]
    rw [if_pos hgt]
  rw [heq]
  exact ⟨rfl, by decide, rfl, rfl⟩

/-- Claim C7 amended: in the variant enforcing the 5 MB limit, a request
whose resume exceeds the limit is rejected before the handler runs and
surfaced by the fallback error middleware as HTTP 500 with the generic
body (detail only in development mode); the process survives as a response
is produced, and no document is persisted. -/
theorem oversized_upload_500
    (env : Env) (req : Request) (store : List Submission)
    (outcome : SaveOutcome) (now id : Nat) (f : UploadedFile)
    (hf : req.file = some f) (hsize : f.buffer.length > maxFileSize) :
    apiSubmit env req store outcome now id =
      (⟨500, .fallbackError "Internal server error"
        (if env.isDevelopment then some multerFileTooLargeMessage else none)⟩, store) := by
  simp only [apiSubmit, hf]
  rw [if_pos hsize]
  rfl

theorem oversized_upload_500_witness :
    oversizedReq.file = some oversizedFile ∧
    oversizedFile.buffer.length > maxFileSize ∧
    apiSubmit ⟨true⟩ oversizedReq [] .ok 0 0 =
      (⟨500, .fallbackError "Internal server error"
        (if (Env.mk true).isDevelopment then some multerFileTooLargeMessage else none)⟩,
       []) :=
  have hgt : oversizedFile.buffer.length > maxFileSize := by
    simp only [oversizedFile, List.length_replicate, maxFileSize]
    decide
  ⟨rfl, hgt, oversized_upload_500 ⟨true⟩ oversizedReq [] .ok 0 0 oversizedFile rfl hgt⟩

end Apply4me
